import Mathlib

/-!
Shallow embedding of src/mp3_downloader.py (TheRealLaksh/mp3-downloader).

Numeric values that the Python code holds as floats (percentages, byte
counts, transfer speeds, ETA seconds) are modelled as rationals.  The
subprocess and GUI effects are modelled by explicit inputs (output lines
already split into the fields the three regexes match, an exit code, a
cancellation instant) and by explicit event traces.
-/

namespace MP3

/-- Characters removed by the character class of the substitution in
clean_name (src/mp3_downloader.py line 55). -/
def illegalChars : List Char := ['<', '>', ':', '"', '/', '\\', '|', '?', '*']

/-- Whitespace as stripped by Python str.strip() (ASCII range). -/
def isPySpace (c : Char) : Bool :=
  c == ' ' || c == '\t' || c == '\n' || c == '\r' || c == '\x0b' || c == '\x0c'

/-- Remove trailing characters satisfying p, as Python str.rstrip does. -/
def dropTrailing (p : Char → Bool) (l : List Char) : List Char :=
  (l.reverse.dropWhile p).reverse

/-- clean_name (src/mp3_downloader.py lines 49-56): a falsy argument (None or
the empty string) yields "Unknown"; otherwise the hash sign and the
filesystem-illegal characters are removed, then surrounding whitespace is
stripped and trailing dots are stripped, in that order. -/
def clean_name : Option String → String
  | none => "Unknown"
  | some s =>
    if s = "" then "Unknown"
    else
      let kept := s.data.filter (fun c => !(c == '#' || illegalChars.contains c))
      let stripped := dropTrailing isPySpace (kept.dropWhile isPySpace)
      String.mk (dropTrailing (fun c => c == '.') stripped)

theorem dropTrailing_subset (p : Char → Bool) (l : List Char) :
    ∀ c ∈ dropTrailing p l, c ∈ l := by
  intro c hc
  have h1 : c ∈ l.reverse.dropWhile p := by
    simpa [dropTrailing] using hc
  have h2 : c ∈ l.reverse := (List.dropWhile_sublist p).subset h1
  simpa using h2

theorem head_dropWhile_false (p : Char → Bool) :
    ∀ (l : List Char) (c : Char), (l.dropWhile p).head? = some c → p c = false := by
  intro l
  induction l with
  | nil => intro c h; simp [List.dropWhile] at h
  | cons a t ih =>
    intro c h
    by_cases hp : p a
    · exact ih c (by simpa [List.dropWhile, hp] using h)
    · rw [List.dropWhile_cons_of_neg (by simpa using hp)] at h
      simp at h
      subst h
      simpa using hp

theorem getLast_dropTrailing_false (p : Char → Bool) (l : List Char) (c : Char)
    (h : (dropTrailing p l).getLast? = some c) : p c = false := by
  have h' : (l.reverse.dropWhile p).head? = some c := by
    have := h
    rw [dropTrailing, List.getLast?_reverse] at this
    exact this
  exact head_dropWhile_false p l.reverse c h'

/-- Claim C1 (as stated) is false: the input "#" consists entirely of stripped
characters yet clean_name returns the empty string, not "Unknown", and the
input "a ." yields "a ", which ends in whitespace. -/
theorem C1_counterexample :
    clean_name (some "#") = "" ∧ clean_name (some "#") ≠ "Unknown" ∧
    clean_name (some "a .") = "a " := by
  refine ⟨by decide, by decide, by decide⟩

/-- Claim C1, amended: for every input, clean_name returns a string that
contains none of the characters stripped by the code (the hash sign and the
filesystem-illegal set), never ends in a dot, and equals "Unknown" when the
input is None or the empty string.  (Input consisting entirely of stripped
characters yields the empty string, and the result may end in whitespace when
whitespace precedes a stripped trailing dot.) -/
theorem C1_amended (x : Option String) :
    (∀ c ∈ (clean_name x).data, c ≠ '#' ∧ c ∉ illegalChars) ∧
    (clean_name x).data.getLast? ≠ some '.' ∧
    clean_name none = "Unknown" ∧ clean_name (some "") = "Unknown" := by
  refine ⟨?_, ?_, rfl, rfl⟩
  · intro c hc
    match x with
    | none => revert hc; revert c; decide
    | some s =>
      by_cases hs : s = ""
      · subst hs; revert hc; revert c; decide
      · simp only [clean_name, if_neg hs] at hc
        have h1 := dropTrailing_subset _ _ c hc
        have h2 := dropTrailing_subset isPySpace _ c h1
        have h3 : c ∈ s.data.filter (fun c => !(c == '#' || illegalChars.contains c)) :=
          (List.dropWhile_sublist isPySpace).subset h2
        have h4 := List.of_mem_filter h3
        simp only [Bool.not_eq_true', Bool.or_eq_false_iff, beq_eq_false_iff_ne,
          ne_eq] at h4
        exact ⟨h4.1, by simpa using h4.2⟩
  · match x with
    | none => decide
    | some s =>
      by_cases hs : s = ""
      · subst hs; decide
      · simp only [clean_name, if_neg hs]
        intro h
        have := getLast_dropTrailing_false (fun c => c == '.') _ _ h
        simp at this

/-- Size/speed unit matched by the regexes on lines 171 and 173 of the
source; SIZE_MULT (line 47) converts it to a byte multiplier. -/
inductive SizeUnit
  | KiB
  | MiB
  | GiB
deriving DecidableEq

/-- SIZE_MULT (src/mp3_downloader.py line 47). -/
def SIZE_MULT : SizeUnit → ℚ
  | .KiB => 1024
  | .MiB => 1024 ^ 2
  | .GiB => 1024 ^ 3

/-- One line of subprocess output, abstracted to the fields the loop body of
download_song extracts from it (src/mp3_downloader.py lines 164-173):
whether the "has already been downloaded" marker is present, and the three
independent regex matches.  Each match carries the numeric value as
`some q`, or `none` when float() would raise ValueError on the matched
digits (possible for the size and speed patterns, whose character class
admits strings such as "1.2.3"). -/
structure ParsedLine where
  already : Bool
  size : Option (Option ℚ × SizeUnit)
  pct : Option (Option ℚ)
  speed : Option (Option ℚ × SizeUnit)
deriving DecidableEq

/-- The phase variable of download_song (lines 148, 195-201). -/
inductive Phase
  | banner
  | song
  | merge
deriving DecidableEq

/-- The per-session mutable locals of download_song (lines 144-148). -/
structure SessionState where
  total_bytes : Option ℚ
  last_pct : Option ℚ
  speed_samples : List ℚ
  saw_progress : Bool
  phase : Phase
deriving DecidableEq

/-- Initial session state (src/mp3_downloader.py lines 144-148). -/
def initState : SessionState :=
  { total_bytes := none, last_pct := none, speed_samples := [],
    saw_progress := false, phase := .banner }

/-- A callback invocation: stage_cb(msg, tag) or
progress_cb(song, pct, downloaded, total, speed, eta).  The total argument is
None or a number in Python, hence an Option here. -/
inductive Event
  | stage (msg : String) (tag : String)
  | progress (song : String) (pct : ℚ) (downloaded : ℚ) (total : Option ℚ)
      (speed : ℚ) (eta : ℚ)
deriving DecidableEq

/-- Total-size update (lines 175-179): a successfully parsed size replaces
total_bytes; a ValueError or no match leaves it unchanged. -/
def newTotalBytes (st : SessionState) (pl : ParsedLine) : Option ℚ :=
  match pl.size with
  | some (some v, u) => some (v * SIZE_MULT u)
  | some (none, _) => st.total_bytes
  | none => st.total_bytes

/-- Percentage clamping (line 188). -/
def clampPct (q : ℚ) : ℚ := if q > 100 then 100 else q

/-- float(done.group(1)) with the ValueError fallback to 0.0
(lines 183-186). -/
def pctVal : Option ℚ → ℚ
  | some q => q
  | none => 0

/-- downloaded = total_bytes * (pct / 100) if total_bytes else 0 (line 191);
a Python float of 0.0 is falsy, hence the zero test. -/
def downloadedOf (tb : Option ℚ) (pct : ℚ) : ℚ :=
  match tb with
  | some t => if t = 0 then 0 else t * (pct / 100)
  | none => 0

/-- remaining = total_bytes - downloaded if total_bytes else None
(line 192). -/
def remainingOf (tb : Option ℚ) (downloaded : ℚ) : Option ℚ :=
  match tb with
  | some t => if t = 0 then none else some (t - downloaded)
  | none => none

/-- Speed-sample update and average (lines 203-212): on a successful speed
parse the sample is appended, the window is trimmed to 10 entries from the
front, and the average is taken over the window; on a ValueError or no
match the window is unchanged and avg_speed is 0. -/
def speedStep (samples : List ℚ) (pl : ParsedLine) : List ℚ × ℚ :=
  match pl.speed with
  | some (some v, u) =>
    let appended := samples ++ [v * SIZE_MULT u]
    let window := if appended.length > 10 then appended.drop 1 else appended
    (window, window.sum / (window.length : ℚ))
  | some (none, _) => (samples, 0)
  | none => (samples, 0)

/-- eta = remaining / avg_speed if (avg_speed and avg_speed > 0 and
remaining) else 0 (line 215); remaining, a Python float, is falsy when 0. -/
def etaOf (remaining : Option ℚ) (avg : ℚ) : ℚ :=
  match remaining with
  | some r => if 0 < avg ∧ r ≠ 0 then r / avg else 0
  | none => 0

/-- One iteration of the download_song read loop body on a non-empty line
(src/mp3_downloader.py lines 164-220), returning the updated session state
and the callback invocations it makes, in order. -/
def processLine (song : String) (st : SessionState) (pl : ParsedLine) :
    SessionState × List Event :=
  if pl.already then
    ({ st with saw_progress := true },
     [.progress song 100 0 (some 0) 0 0, .stage "Already downloaded" "final"])
  else
    let tb := newTotalBytes st pl
    match pl.pct with
    | none => ({ st with total_bytes := tb }, [])
    | some pv =>
      let pct := clampPct (pctVal pv)
      let downloaded := downloadedOf tb pct
      let remaining := remainingOf tb downloaded
      let ev1 : List Event :=
        if 2 < pct ∧ st.phase = .banner
        then [.stage "Downloading song" "download"] else []
      let phase1 : Phase :=
        if 2 < pct ∧ st.phase = .banner then .song else st.phase
      let ev2 : List Event :=
        if 98 < pct ∧ phase1 = .song
        then [.stage "Merging everything" "merge"] else []
      let phase2 : Phase :=
        if 98 < pct ∧ phase1 = .song then .merge else phase1
      let sp := speedStep st.speed_samples pl
      let eta := etaOf remaining sp.2
      let ev3 : List Event :=
        if st.last_pct = some pct then []
        else [.progress song pct downloaded tb sp.2 eta]
      let last : Option ℚ :=
        if st.last_pct = some pct then st.last_pct else some pct
      ({ total_bytes := tb, last_pct := last, speed_samples := sp.1,
         saw_progress := true, phase := phase2 },
       ev1 ++ ev2 ++ ev3)

/-- Fold of processLine over a list of lines: the read loop without
cancellation, accumulating the emitted events in order. -/
def runLines (song : String) (st : SessionState) :
    List ParsedLine → SessionState × List Event
  | [] => (st, [])
  | pl :: rest =>
    let r1 := processLine song st pl
    let r2 := runLines song r1.1 rest
    (r2.1, r1.2 ++ r2.2)

/-- Whether the cooperative stop flag reads true at poll number i, the flag
being modelled as switching on permanently at poll stopAt. -/
def stopHit : Option Nat → Nat → Bool
  | some k, i => k ≤ i
  | none, _ => false

/-- The read loop of download_song (lines 151-220): the stop flag is polled
before each line is consumed, and once more before the loop exits at end of
stream; a positive poll terminates the subprocess and the whole call returns
False (line 155).  Returns the final state, the events, and whether the
cancellation path was taken. -/
def runLoop (song : String) (stopAt : Option Nat) :
    List ParsedLine → Nat → SessionState → SessionState × List Event × Bool
  | [], i, st => (st, [], stopHit stopAt i)
  | pl :: rest, i, st =>
    if stopHit stopAt i then (st, [], true)
    else
      let r1 := processLine song st pl
      let r2 := runLoop song stopAt rest (i + 1) r1.1
      (r2.1, r1.2 ++ r2.2.1, r2.2.2)

/-- One subprocess invocation for one track, abstracted: the launch outcome
(None, or the exception text), the output lines (already split into their
matched fields), the poll at which the stop flag turns on, and the exit
code.  A mid-stream I/O fault, which the source suppresses, corresponds to
truncating `lines`. -/
structure DownloadInput where
  launchErr : Option String
  lines : List ParsedLine
  stopAt : Option Nat
  exitCode : Int
deriving DecidableEq

/-- The four informational stage events emitted before the subprocess is
launched (src/mp3_downloader.py lines 120-123). -/
def preEvents : List Event :=
  [.stage "Starting" "start", .stage "Fetching song details" "info",
   .stage "Fetching artist details" "info", .stage "Fetching album details" "info"]

/-- download_song (src/mp3_downloader.py lines 106-241): emits the fixed
informational events, launches the subprocess (a launch failure emits an
error stage and returns False), runs the read loop, and—unless the
cancellation path returned False from inside the loop—returns True with a
final stage when the exit code is 0 and progress was observed, otherwise
False with an error stage. -/
def download_song (song : String) (inp : DownloadInput) : Bool × List Event :=
  match inp.launchErr with
  | some e => (false, preEvents ++ [.stage ("Launch error: " ++ e) "error"])
  | none =>
    let r := runLoop song inp.stopAt inp.lines 0 initState
    let evs := preEvents ++ [.stage "Downloading banner" "download"] ++ r.2.1
    if r.2.2 then (false, evs)
    else if inp.exitCode = 0 ∧ r.1.saw_progress then
      (true, evs ++ [.stage "Finalizing" "final"])
    else
      (false, evs ++ [.stage "Download failed or interrupted" "error"])

/-- Whether the trace contains a stage event with the "error" tag. -/
def hasErrorStage (evs : List Event) : Bool :=
  evs.any fun ev =>
    match ev with
    | .stage _ t => t == "error"
    | _ => false

/-- Whether the stop flag turns on within a session that reads n lines
(n + 1 polls). -/
def stopsDuring (stopAt : Option Nat) (n : Nat) : Bool :=
  match stopAt with
  | some k => k ≤ n
  | none => false

theorem runLoop_cancelFlag (song : String) (stopAt : Option Nat) :
    ∀ (lines : List ParsedLine) (i : Nat) (st : SessionState),
      (runLoop song stopAt lines i st).2.2 = stopHit stopAt (i + lines.length) := by
  intro lines
  induction lines with
  | nil => intro i st; simp [runLoop]
  | cons pl rest ih =>
    intro i st
    by_cases h : stopHit stopAt i = true
    · have hk : stopHit stopAt (i + (rest.length + 1)) = true := by
        match stopAt with
        | none => simp [stopHit] at h
        | some k =>
          simp only [stopHit, decide_eq_true_eq] at h ⊢
          omega
      simp [runLoop, h, hk]
    · have heq : i + 1 + rest.length = i + (pl :: rest).length := by
        simp; omega
      simp only [runLoop, h, if_neg, Bool.false_eq_true, not_false_eq_true, if_false]
      rw [ih (i + 1) (processLine song st pl).1]
      rw [heq]

theorem processLine_no_error (song : String) (st : SessionState) (pl : ParsedLine) :
    hasErrorStage (processLine song st pl).2 = false := by
  rcases pl with ⟨already, size, pct, speed⟩
  by_cases ha : already
  · simp [processLine, ha, hasErrorStage]
  · match pct with
    | none => simp [processLine, ha, hasErrorStage]
    | some pv =>
      simp only [processLine, ha, Bool.false_eq_true, if_false, hasErrorStage,
        List.any_append]
      split <;> split <;> split <;> simp [hasErrorStage]

theorem runLoop_no_error (song : String) (stopAt : Option Nat) :
    ∀ (lines : List ParsedLine) (i : Nat) (st : SessionState),
      hasErrorStage (runLoop song stopAt lines i st).2.1 = false := by
  intro lines
  induction lines with
  | nil => intro i st; simp [runLoop, hasErrorStage]
  | cons pl rest ih =>
    intro i st
    by_cases h : stopHit stopAt i = true
    · simp [runLoop, h, hasErrorStage]
    · simp only [runLoop, h, Bool.false_eq_true, if_false]
      have h1 := processLine_no_error song st pl
      have h2 := ih (i + 1) (processLine song st pl).1
      simp only [hasErrorStage, List.any_append, Bool.or_eq_false_iff] at h1 h2 ⊢
      exact ⟨h1, h2⟩

theorem preEvents_no_error : hasErrorStage preEvents = false := by decide

/-- Claim C2 (as stated) is false on the cancellation path: when the stop
flag is already set at the first poll, download_song returns failure but
emits no "error" stage event (the early return on line 155 of the source
bypasses the error stage on line 240). -/
theorem C2_counterexample :
    (download_song "s" ⟨none, [], some 0, 0⟩).1 = false ∧
    hasErrorStage (download_song "s" ⟨none, [], some 0, 0⟩).2 = false := by
  constructor <;> decide

/-- Claim C2, amended: download_song returns success exactly when the launch
succeeded, the session was not cancelled, the exit code is zero, and at
least one progress update was observed; an "error" stage event is emitted
exactly on the failures that are not cancellations (non-zero exit, zero exit
without observed progress, launch failure) — a cancelled session returns
failure without emitting an error stage event. -/
theorem C2_amended (song : String) (inp : DownloadInput) :
    (download_song song inp).1 =
      (inp.launchErr.isNone && !stopsDuring inp.stopAt inp.lines.length &&
       (inp.exitCode == 0) &&
       (runLoop song inp.stopAt inp.lines 0 initState).1.saw_progress) ∧
    hasErrorStage (download_song song inp).2 =
      (!(download_song song inp).1 &&
       !(inp.launchErr.isNone && stopsDuring inp.stopAt inp.lines.length)) := by
  rcases inp with ⟨le, lines, stopAt, exit⟩
  match le with
  | some e =>
    refine ⟨by simp [download_song], ?_⟩
    simp [download_song, hasErrorStage, preEvents]
  | none =>
    have hflag : (runLoop song stopAt lines 0 initState).2.2
        = stopsDuring stopAt lines.length := by
      have h := runLoop_cancelFlag song stopAt lines 0 initState
      rw [h]
      match stopAt with
      | none => rfl
      | some k => simp [stopHit, stopsDuring]
    have hloop := runLoop_no_error song stopAt lines 0 initState
    by_cases hc : stopsDuring stopAt lines.length = true
    · refine ⟨?_, ?_⟩
      · simp [download_song, hflag, hc]
      · simp only [download_song, hflag, hc, if_true, Option.isNone_none,
          Bool.true_and, Bool.not_true, Bool.and_false, Bool.not_false]
        simp [hasErrorStage, List.any_append, preEvents] at hloop ⊢
        exact hloop
    · by_cases hes : exit = 0 ∧ (runLoop song stopAt lines 0 initState).1.saw_progress = true
      · refine ⟨?_, ?_⟩
        · simp [download_song, hflag, hc, hes, hes.1, hes.2]
        · simp only [download_song, hflag, hc, Bool.false_eq_true, if_false, if_pos hes]
          simp [hasErrorStage, List.any_append, preEvents] at hloop ⊢
          exact hloop
      · refine ⟨?_, ?_⟩
        · simp only [download_song, hflag, hc, Bool.false_eq_true, if_false, if_neg hes]
          rcases Decidable.not_and_iff_or_not.mp hes with h | h
          · simp [h]
          · simp [Bool.eq_false_iff.mpr h]
        · simp only [download_song, hflag, hc, Bool.false_eq_true, if_false, if_neg hes]
          simp [hasErrorStage, List.any_append, preEvents]

/-- A line whose only regex match is a percentage value q, e.g. a plain
"[download]  37.2%" line. -/
def pctLine (q : ℚ) : ParsedLine :=
  { already := false, size := none, pct := some (some q), speed := none }

/-- Whether the event is a stage event with the given message. -/
def isStageMsg (msg : String) (ev : Event) : Bool :=
  match ev with
  | .stage m _ => m == msg
  | _ => false

theorem clampPct_gt (a q : ℚ) (ha : a < 100) : (a < clampPct q) ↔ a < q := by
  unfold clampPct
  split
  · next h => exact ⟨fun _ => by linarith, fun _ => ha⟩
  · exact Iff.rfl

theorem processLine_pctLine (song : String) (st : SessionState) (q : ℚ) :
    processLine song st (pctLine q) =
      ({ total_bytes := st.total_bytes,
         last_pct := if st.last_pct = some (clampPct q) then st.last_pct
                     else some (clampPct q),
         speed_samples := st.speed_samples,
         saw_progress := true,
         phase := if 98 < clampPct q ∧
                      (if 2 < clampPct q ∧ st.phase = .banner then Phase.song
                       else st.phase) = .song then .merge
                  else if 2 < clampPct q ∧ st.phase = .banner then Phase.song
                  else st.phase },
       (if 2 < clampPct q ∧ st.phase = .banner
        then [Event.stage "Downloading song" "download"] else []) ++
       (if 98 < clampPct q ∧
            (if 2 < clampPct q ∧ st.phase = .banner then Phase.song
             else st.phase) = .song
        then [Event.stage "Merging everything" "merge"] else []) ++
       (if st.last_pct = some (clampPct q) then []
        else [Event.progress song (clampPct q)
                (downloadedOf st.total_bytes (clampPct q)) st.total_bytes 0
                (etaOf (remainingOf st.total_bytes
                  (downloadedOf st.total_bytes (clampPct q))) 0)])) := by
  simp [processLine, pctLine, newTotalBytes, speedStep, pctVal]

theorem countP_stage_of_progress (m song : String) (c : Prop) [Decidable c]
    (pct d : ℚ) (tb : Option ℚ) (sp eta : ℚ) :
    (if c then ([] : List Event)
     else [Event.progress song pct d tb sp eta]).countP (isStageMsg m) = 0 := by
  split <;> simp [isStageMsg]

theorem countSong_runLines (song : String) :
    ∀ (qs : List ℚ) (st : SessionState),
      ((runLines song st (qs.map pctLine)).2.countP (isStageMsg "Downloading song"))
        = if st.phase = Phase.banner ∧ ∃ q ∈ qs, 2 < q then 1 else 0 := by
  have e1 : isStageMsg "Downloading song" (Event.stage "Downloading song" "download")
      = true := by decide
  have e2 : isStageMsg "Downloading song" (Event.stage "Merging everything" "merge")
      = false := by decide
  intro qs
  induction qs with
  | nil => intro st; simp [runLines]
  | cons q rest ih =>
    intro st
    simp only [List.map_cons, runLines, List.countP_append]
    rw [processLine_pctLine]
    cases hph : st.phase with
    | banner =>
      by_cases h2 : 2 < q
      · have h2c : 2 < clampPct q := (clampPct_gt 2 q (by norm_num)).mpr h2
        by_cases h98 : 98 < clampPct q
        · simp [hph, h2c, h98, ih, countP_stage_of_progress, e1, e2, h2]
        · simp [hph, h2c, h98, ih, countP_stage_of_progress, e1, e2, h2]
      · have h2c : ¬ 2 < clampPct q := fun hc =>
          h2 ((clampPct_gt 2 q (by norm_num)).mp hc)
        have h98c : ¬ 98 < clampPct q := fun hc =>
          h2c (by linarith [(clampPct_gt 98 q (by norm_num)).mp hc,
            (clampPct_gt 98 q (by norm_num)).mp hc])
        simp [hph, h2c, h98c, ih, countP_stage_of_progress, h2]
    | song =>
      by_cases h98 : 98 < clampPct q
      · simp [hph, h98, ih, countP_stage_of_progress, e2]
      · simp [hph, h98, ih, countP_stage_of_progress]
    | merge =>
      simp [hph, ih, countP_stage_of_progress]

theorem countMerge_runLines (song : String) :
    ∀ (qs : List ℚ) (st : SessionState),
      ((runLines song st (qs.map pctLine)).2.countP (isStageMsg "Merging everything"))
        = if st.phase ≠ Phase.merge ∧ ∃ q ∈ qs, 98 < q then 1 else 0 := by
  have e1 : isStageMsg "Merging everything" (Event.stage "Downloading song" "download")
      = false := by decide
  have e2 : isStageMsg "Merging everything" (Event.stage "Merging everything" "merge")
      = true := by decide
  intro qs
  induction qs with
  | nil => intro st; simp [runLines]
  | cons q rest ih =>
    intro st
    simp only [List.map_cons, runLines, List.countP_append]
    rw [processLine_pctLine]
    cases hph : st.phase with
    | banner =>
      by_cases h98 : 98 < q
      · have h98c : 98 < clampPct q := (clampPct_gt 98 q (by norm_num)).mpr h98
        have h2c : 2 < clampPct q := by
          have := (clampPct_gt 98 q (by norm_num)).mpr h98
          linarith
        simp [hph, h2c, h98c, ih, countP_stage_of_progress, e1, e2, h98]
      · have h98c : ¬ 98 < clampPct q := fun hc =>
          h98 ((clampPct_gt 98 q (by norm_num)).mp hc)
        by_cases h2c : 2 < clampPct q
        · simp [hph, h2c, h98c, ih, countP_stage_of_progress, e1, h98]
        · simp [hph, h2c, h98c, ih, countP_stage_of_progress, h98]
    | song =>
      by_cases h98 : 98 < q
      · have h98c : 98 < clampPct q := (clampPct_gt 98 q (by norm_num)).mpr h98
        simp [hph, h98c, ih, countP_stage_of_progress, e2, h98]
      · have h98c : ¬ 98 < clampPct q := fun hc =>
          h98 ((clampPct_gt 98 q (by norm_num)).mp hc)
        simp [hph, h98c, ih, countP_stage_of_progress, h98]
    | merge =>
      simp [hph, ih, countP_stage_of_progress]

/-- Claim C4: within one session, for every sequence of parsed percentage
values, the Banner-to-Song stage fires exactly once when some percentage
exceeds 2 and never otherwise, the Song-to-Merge stage fires exactly once
when some percentage exceeds 98 and never otherwise, the same holds on every
prefix of the sequence (so each transition fires at the first exceedance and
is never re-emitted), and feeding [1, 3, 50, 99, 99, 100] yields exactly one
of each. -/
theorem C4_phase_transitions (song : String) (qs : List ℚ) :
    (((runLines song initState (qs.map pctLine)).2.countP
        (isStageMsg "Downloading song"))
      = if ∃ q ∈ qs, 2 < q then 1 else 0) ∧
    (((runLines song initState (qs.map pctLine)).2.countP
        (isStageMsg "Merging everything"))
      = if ∃ q ∈ qs, 98 < q then 1 else 0) ∧
    (∀ n : Nat,
      (((runLines song initState ((qs.take n).map pctLine)).2.countP
          (isStageMsg "Downloading song"))
        = if ∃ q ∈ qs.take n, 2 < q then 1 else 0) ∧
      (((runLines song initState ((qs.take n).map pctLine)).2.countP
          (isStageMsg "Merging everything"))
        = if ∃ q ∈ qs.take n, 98 < q then 1 else 0)) ∧
    ((runLines song initState ([(1 : ℚ), 3, 50, 99, 99, 100].map pctLine)).2.countP
        (isStageMsg "Downloading song") = 1 ∧
     (runLines song initState ([(1 : ℚ), 3, 50, 99, 99, 100].map pctLine)).2.countP
        (isStageMsg "Merging everything") = 1) := by
  refine ⟨?_, ?_, fun n => ⟨?_, ?_⟩, ?_, ?_⟩
  · rw [countSong_runLines]; simp [initState]
  · rw [countMerge_runLines]; simp [initState]
  · rw [countSong_runLines]; simp [initState]
  · rw [countMerge_runLines]; simp [initState]
  · rw [countSong_runLines]
    rw [if_pos]
    exact ⟨by simp [initState], ⟨3, by norm_num⟩⟩
  · rw [countMerge_runLines]
    rw [if_pos]
    exact ⟨by simp [initState], ⟨99, by norm_num⟩⟩

/-- Claim C10: if the first percentage parsed in a session already exceeds
98, processing that single update emits the Banner-to-Song and then the
Song-to-Merge stage events, in that order, followed by the progress event,
and the session phase ends at Merge. -/
theorem C10_first_pct_above_98 (song : String) (q : ℚ) (h : 98 < q) :
    processLine song initState (pctLine q) =
      ({ total_bytes := none, last_pct := some (clampPct q), speed_samples := [],
         saw_progress := true, phase := Phase.merge },
       [Event.stage "Downloading song" "download",
        Event.stage "Merging everything" "merge",
        Event.progress song (clampPct q) 0 none 0 0]) := by
  have h98c : 98 < clampPct q := (clampPct_gt 98 q (by norm_num)).mpr h
  have h2c : 2 < clampPct q := by linarith
  rw [processLine_pctLine]
  simp [initState, h2c, h98c, downloadedOf, remainingOf, etaOf]

/-- Witness for C10 at the concrete first percentage 99. -/
theorem C10_witness :
    (98 : ℚ) < 99 ∧
    processLine "s" initState (pctLine 99) =
      ({ total_bytes := none, last_pct := some (clampPct 99), speed_samples := [],
         saw_progress := true, phase := Phase.merge },
       [Event.stage "Downloading song" "download",
        Event.stage "Merging everything" "merge",
        Event.progress "s" (clampPct 99) 0 none 0 0]) :=
  ⟨by norm_num, C10_first_pct_above_98 "s" 99 (by norm_num)⟩

/-- The percentage values carried by the progress events of a trace, in
order. -/
def progressPcts (evs : List Event) : List ℚ :=
  evs.filterMap fun ev =>
    match ev with
    | .progress _ p _ _ _ _ => some p
    | _ => none

/-- Consecutive dedup relative to the previously reported value: keeps a
value only when it differs from the preceding one (line 218 of the
source). -/
def dedupFrom (last : Option ℚ) : List ℚ → List ℚ
  | [] => []
  | c :: cs =>
    if last = some c then dedupFrom (some c) cs else c :: dedupFrom (some c) cs

theorem progressPcts_stage_if (c : Prop) [Decidable c] (m t : String) :
    progressPcts (if c then [Event.stage m t] else []) = [] := by
  split <;> simp [progressPcts]

theorem progressPcts_runLines (song : String) :
    ∀ (qs : List ℚ) (st : SessionState),
      progressPcts (runLines song st (qs.map pctLine)).2
        = dedupFrom st.last_pct (qs.map clampPct) := by
  intro qs
  induction qs with
  | nil => intro st; simp [runLines, progressPcts, dedupFrom]
  | cons q rest ih =>
    intro st
    simp only [List.map_cons, runLines, dedupFrom]
    rw [processLine_pctLine]
    simp only [progressPcts, List.filterMap_append]
    rw [← progressPcts, ← progressPcts, ← progressPcts, ← progressPcts]
    rw [progressPcts_stage_if, progressPcts_stage_if]
    by_cases hl : st.last_pct = some (clampPct q)
    · rw [if_pos hl, if_pos hl, if_pos hl]
      simp only [List.nil_append]
      rw [ih]
      simp [hl, progressPcts]
    · rw [if_neg hl, if_neg hl, if_neg hl]
      simp only [List.nil_append]
      rw [ih]
      simp [progressPcts]

theorem dedupFrom_head_ne (a : ℚ) :
    ∀ l : List ℚ, (dedupFrom (some a) l).head? ≠ some a := by
  intro l
  induction l generalizing a with
  | nil => simp [dedupFrom]
  | cons c cs ih =>
    simp only [dedupFrom]
    by_cases h : (some a : Option ℚ) = some c
    · rw [if_pos h]
      have hac : a = c := by simpa using h
      subst hac
      exact ih a
    · rw [if_neg h]
      intro hc
      simp at hc
      exact h (by rw [hc])

theorem dedupFrom_chain (last : Option ℚ) (l : List ℚ) :
    List.Chain' (fun a b => a ≠ b) (dedupFrom last l) := by
  induction l generalizing last with
  | nil => simp [dedupFrom]
  | cons c cs ih =>
    simp only [dedupFrom]
    split
    · exact ih (some c)
    · refine List.chain'_cons'.mpr ⟨?_, ih (some c)⟩
      intro b hb
      intro hcb
      subst hcb
      exact dedupFrom_head_ne c cs (by simpa using hb)

/-- Claim C5: over a session fed any sequence of parsed percentage values,
the emitted progress percentages are exactly the consecutive-dedup of the
clamped input values (each value above 100 is clamped to 100, and a progress
event is emitted only when the clamped value differs from the previously
reported one), so no two consecutive progress events carry the same
percentage. -/
theorem C5_clamp_dedup (song : String) (qs : List ℚ) :
    progressPcts (runLines song initState (qs.map pctLine)).2
        = dedupFrom none (qs.map clampPct) ∧
    List.Chain' (fun a b => a ≠ b)
      (progressPcts (runLines song initState (qs.map pctLine)).2) := by
  have hA := progressPcts_runLines song qs initState
  have hA' : progressPcts (runLines song initState (qs.map pctLine)).2
      = dedupFrom none (qs.map clampPct) := by
    rw [hA]; rfl
  exact ⟨hA', hA' ▸ dedupFrom_chain none (qs.map clampPct)⟩

/-- Claim C9: a line carrying a transfer-speed match but no percentage match
leaves the speed-sample window, the last-reported percentage, the phase, the
saw-progress flag, and the event stream unchanged; only the total-size field
may be updated. -/
theorem C9_speed_without_pct (song : String) (st : SessionState) (pl : ParsedLine)
    (ha : pl.already = false) (hp : pl.pct = none) (hs : pl.speed.isSome) :
    processLine song st pl = ({ st with total_bytes := newTotalBytes st pl }, []) := by
  rcases pl with ⟨already, size, pct, speed⟩
  simp only at ha hp
  subst ha
  subst hp
  simp [processLine]

/-- Witness for C9: a pure speed line on the initial state changes
nothing. -/
theorem C9_witness :
    processLine "s" initState
      { already := false, size := none, pct := none,
        speed := some (some 1, SizeUnit.KiB) } = (initState, []) := by
  have h := C9_speed_without_pct "s" initState
    { already := false, size := none, pct := none,
      speed := some (some 1, SizeUnit.KiB) } rfl rfl rfl
  simpa [newTotalBytes, initState] using h

theorem clampPct_le_100 (q : ℚ) : clampPct q ≤ 100 := by
  unfold clampPct
  split
  · exact le_refl 100
  · next h => exact not_lt.mp h

theorem SIZE_MULT_nonneg (u : SizeUnit) : 0 ≤ SIZE_MULT u := by
  cases u <;> norm_num [SIZE_MULT]

theorem processLine_already_events (song : String) (st : SessionState)
    (size speed : Option (Option ℚ × SizeUnit)) (pct : Option (Option ℚ)) :
    (processLine song st
        { already := true, size := size, pct := pct, speed := speed }).2
      = [Event.progress song 100 0 (some 0) 0 0,
         Event.stage "Already downloaded" "final"] := rfl

theorem processLine_noPct_events (song : String) (st : SessionState)
    (size speed : Option (Option ℚ × SizeUnit)) :
    (processLine song st
        { already := false, size := size, pct := none, speed := speed }).2
      = [] := rfl

theorem processLine_pct_events (song : String) (st : SessionState)
    (size speed : Option (Option ℚ × SizeUnit)) (pv : Option ℚ) :
    (processLine song st
        { already := false, size := size, pct := some pv, speed := speed }).2
      = (if 2 < clampPct (pctVal pv) ∧ st.phase = Phase.banner
         then [Event.stage "Downloading song" "download"] else []) ++
        (if 98 < clampPct (pctVal pv) ∧
             (if 2 < clampPct (pctVal pv) ∧ st.phase = Phase.banner
              then Phase.song else st.phase) = Phase.song
         then [Event.stage "Merging everything" "merge"] else []) ++
        (if st.last_pct = some (clampPct (pctVal pv)) then []
         else [Event.progress song (clampPct (pctVal pv))
                (downloadedOf
                  (newTotalBytes st
                    { already := false, size := size, pct := some pv, speed := speed })
                  (clampPct (pctVal pv)))
                (newTotalBytes st
                  { already := false, size := size, pct := some pv, speed := speed })
                (speedStep st.speed_samples
                  { already := false, size := size, pct := some pv, speed := speed }).2
                (etaOf
                  (remainingOf
                    (newTotalBytes st
                      { already := false, size := size, pct := some pv, speed := speed })
                    (downloadedOf
                      (newTotalBytes st
                        { already := false, size := size, pct := some pv, speed := speed })
                      (clampPct (pctVal pv))))
                  (speedStep st.speed_samples
                    { already := false, size := size, pct := some pv, speed := speed }).2)]) :=
  rfl

theorem progress_not_mem_stage_if (c : Prop) [Decidable c] (m tg s : String)
    (p d : ℚ) (tb : Option ℚ) (sp e : ℚ) :
    Event.progress s p d tb sp e ∉ (if c then [Event.stage m tg] else []) := by
  split
  · intro h
    cases h with
    | tail _ h3 => cases h3
  · exact List.not_mem_nil _

theorem etaOf_spec (tb : Option ℚ) (pc avg : ℚ)
    (htb : ∀ t, tb = some t → 0 ≤ t) (hpc : pc ≤ 100) :
    0 ≤ etaOf (remainingOf tb (downloadedOf tb pc)) avg ∧
    (avg = 0 ∨ tb = none ∨ tb = some 0 →
      etaOf (remainingOf tb (downloadedOf tb pc)) avg = 0) ∧
    (0 < avg → ∀ tv, tb = some tv → tv ≠ 0 →
      etaOf (remainingOf tb (downloadedOf tb pc)) avg
        = (tv - downloadedOf tb pc) / avg) := by
  refine ⟨?_, ?_, ?_⟩
  · cases tb with
    | none => simp [remainingOf, etaOf]
    | some tv =>
      by_cases h0 : tv = 0
      · subst h0; simp [remainingOf, etaOf]
      · simp only [remainingOf, if_neg h0, etaOf]
        split
        · next hcond =>
          refine div_nonneg ?_ (le_of_lt hcond.1)
          have htv : 0 ≤ tv := htb tv rfl
          simp only [downloadedOf, if_neg h0]
          have h1 : pc / 100 ≤ 1 := by linarith
          nlinarith [mul_nonneg htv (sub_nonneg.mpr h1)]
        · exact le_refl 0
  · intro hB
    rcases hB with h | h | h
    · subst h
      cases tb with
      | none => simp [remainingOf, etaOf]
      | some tv =>
        by_cases h0 : tv = 0
        · subst h0; simp [remainingOf, etaOf]
        · simp [remainingOf, if_neg h0, etaOf]
    · subst h; simp [remainingOf, etaOf]
    · subst h; simp [remainingOf, etaOf]
  · intro havg tv htv h0
    subst htv
    simp only [remainingOf, if_neg h0, etaOf]
    split
    · rfl
    · next hcond =>
      have hz : tv - downloadedOf (some tv) pc = 0 := by
        by_contra hne
        exact hcond ⟨havg, hne⟩
      rw [hz, zero_div]

/-- Claim C6: every progress event carries an ETA that is non-negative, that
is exactly 0 whenever the average speed is 0 or the total byte count (hence
the remaining byte count) is unknown (None or falsy zero), and that equals
remaining bytes (total minus downloaded) divided by average speed whenever
the average speed is positive and the remaining byte count is known. The
nonnegativity hypotheses reflect that the size regexes only match unsigned
decimals. -/
theorem C6_eta_bounds (song : String) (st : SessionState) (pl : ParsedLine)
    (htb : ∀ t, st.total_bytes = some t → 0 ≤ t)
    (hsize : ∀ v u, pl.size = some (some v, u) → 0 ≤ v) :
    ∀ ev ∈ (processLine song st pl).2, ∀ s p d t sp e,
      ev = Event.progress s p d t sp e →
        0 ≤ e ∧ (sp = 0 ∨ t = none ∨ t = some 0 → e = 0) ∧
        (0 < sp → ∀ tv, t = some tv → tv ≠ 0 → e = (tv - d) / sp) := by
  have htb' : ∀ t, newTotalBytes st pl = some t → 0 ≤ t := by
    intro t ht
    unfold newTotalBytes at ht
    cases hsz : pl.size with
    | none => rw [hsz] at ht; exact htb t ht
    | some pr =>
      rcases pr with ⟨ov, u⟩
      cases ov with
      | none => rw [hsz] at ht; exact htb t ht
      | some v =>
        rw [hsz] at ht
        simp only [Option.some_inj] at ht
        subst ht
        exact mul_nonneg (hsize v u hsz) (SIZE_MULT_nonneg u)
  intro ev hev s p d t sp e heq
  subst heq
  rcases pl with ⟨already, size, pct, speed⟩
  cases already with
  | true =>
    rw [processLine_already_events] at hev
    cases hev with
    | head =>
      exact ⟨le_refl 0, fun _ => rfl, fun h => absurd h (by norm_num)⟩
    | tail _ h2 =>
      cases h2 with
      | tail _ h3 => cases h3
  | false =>
    cases pct with
    | none =>
      rw [processLine_noPct_events] at hev
      exact absurd hev (List.not_mem_nil _)
    | some pv =>
      rw [processLine_pct_events] at hev
      rw [List.mem_append, List.mem_append] at hev
      rcases hev with (h | h) | h
      · exact absurd h (progress_not_mem_stage_if _ _ _ _ _ _ _ _ _)
      · exact absurd h (progress_not_mem_stage_if _ _ _ _ _ _ _ _ _)
      · revert h
        split
        · intro h; exact absurd h (List.not_mem_nil _)
        · intro h
          rw [List.mem_singleton] at h
          injection h with hs' hp' hd' ht' hsp' he'
          subst hd'
          subst ht'
          subst hsp'
          subst he'
          exact etaOf_spec _ _ _ htb' (clampPct_le_100 _)

/-- Witness for C6: the progress event of a percentage-only line (value 200,
clamped to 100) on the initial state carries ETA exactly 0. -/
theorem C6_witness :
    (0 : ℚ) ≤ 0 ∧
    ((0 : ℚ) = 0 ∨ (none : Option ℚ) = none ∨ (none : Option ℚ) = some 0 →
      (0 : ℚ) = 0) := by
  have h := C6_eta_bounds "s" initState
    { already := false, size := none, pct := some (some 200), speed := none }
    (fun t ht => by simp [initState] at ht)
    (fun v u hv => by simp at hv)
    (Event.progress "s" 100 0 none 0 0) (by decide)
    "s" 100 0 none 0 0 rfl
  exact ⟨h.1, h.2.1⟩

/-- The characters that CPython re.escape prefixes with a backslash (its
_special_chars_map). -/
def specialChars : List Char :=
  ['(', ')', '[', ']', '\x7b', '\x7d', '?', '*', '+', '-', '|', '^', '$', '\\',
   '.', '&', '~', '#', ' ', '\t', '\n', '\r', '\x0b', '\x0c']

/-- re.escape (the safe_song computation on line 107 of the source). -/
def reEscape (s : String) : String :=
  String.mk (s.data.flatMap fun c =>
    if specialChars.contains c then ['\\', c] else [c])

/-- The characters that carry special meaning in a Python regular expression
when they appear unescaped. -/
def metaChars : List Char :=
  ['.', '^', '$', '*', '+', '?', '\x7b', '\x7d', '[', ']', '\\', '|', '(', ')']

/-- Interprets a regex pattern that denotes a literal character sequence:
returns the denoted characters when every pattern character is an ordinary
literal or a backslash-escaped non-alphanumeric (which Python regexes match
literally), and none as soon as an unescaped metacharacter, an escape that
could carry special meaning (backslash before an alphanumeric), or a
dangling backslash appears. -/
def interpLiteral : List Char → Option (List Char)
  | [] => some []
  | c :: rest =>
    if c = '\\' then
      match rest with
      | [] => none
      | d :: rest2 =>
        if d.isAlphanum then none
        else (interpLiteral rest2).map (fun l => d :: l)
    else if metaChars.contains c then none
    else (interpLiteral rest).map (fun l => c :: l)

/-- PLAYLIST_URL (src/mp3_downloader.py line 16). -/
def PLAYLIST_URL : String :=
  "https://music.youtube.com/playlist?list=PLdcNZLpAI8easW7k-5luDy3j4LauXpbx-&si=aV6ovGfbLpF4tCw-"

/-- The yt-dlp invocation built by download_song (src/mp3_downloader.py
lines 107-117); sys.executable is a parameter, and the output template is
the playlist directory joined with the fixed filename template. -/
def buildCmd (pyExe song playlist_dir : String) : List String :=
  [pyExe, "-m", "yt_dlp", PLAYLIST_URL,
   "--newline",
   "--extract-audio", "--audio-format", "mp3",
   "--audio-quality", "0",
   "--match-title", reEscape song,
   "-o", playlist_dir ++ "/%(title)s.%(ext)s",
   "--encoding", "utf-8"]

theorem special_not_alphanum :
    specialChars.all (fun c => !c.isAlphanum) = true := by decide

theorem meta_subset_special : ∀ c : Char, c ∈ metaChars → c ∈ specialChars := by
  intro c hc
  fin_cases hc <;> decide

theorem interpLiteral_flatMap :
    ∀ l : List Char,
      interpLiteral (l.flatMap fun c =>
        if specialChars.contains c then ['\\', c] else [c]) = some l := by
  intro l
  induction l with
  | nil => rfl
  | cons c rest ih =>
    rw [List.flatMap_cons]
    have ih' : interpLiteral (rest.flatMap fun c =>
        if c ∈ specialChars then ['\\', c] else [c]) = some rest := by
      simpa using ih
    by_cases hc : specialChars.contains c = true
    · rw [if_pos hc]
      have hmem : c ∈ specialChars := by simpa using hc
      have halnum : c.isAlphanum = false := by
        have := List.all_eq_true.mp special_not_alphanum c hmem
        simpa using this
      simp [interpLiteral, halnum, ih']
    · rw [if_neg hc]
      have hne : c ≠ '\\' := by
        intro h
        subst h
        exact hc (by decide)
      have hmeta : metaChars.contains c = false := by
        by_contra hm
        have hm' : c ∈ metaChars := by
          simpa using Bool.of_not_eq_false hm
        exact hc (by simpa using meta_subset_special c hm')
      have hmeta' : c ∉ metaChars := by simpa using hmeta
      rw [interpLiteral.eq_def]
      simp [hne, hmeta', ih']

/-- Claim C3: the title filter handed to the external tool is the
re.escape'd raw title: it sits right after the "--match-title" flag in the
command, and, interpreted as a regex, it denotes exactly the literal
character sequence of the title — no metacharacter in the title retains
special meaning. -/
theorem C3_literal_title (pyExe song playlist_dir : String) :
    (buildCmd pyExe song playlist_dir)[10]? = some "--match-title" ∧
    (buildCmd pyExe song playlist_dir)[11]? = some (reEscape song) ∧
    interpLiteral (reEscape song).data = some song.data := by
  refine ⟨rfl, rfl, ?_⟩
  simpa [reEscape] using interpLiteral_flatMap song.data

/-- Whether a file name ends in ".mp3" (the glob pattern on line 586 of the
source), checked on the character list. -/
def isMp3 (f : String) : Bool :=
  decide (f.data.reverse.take 4 = ['3', 'p', 'm', '.'])

/-- Base names (Path.stem) of the ".mp3" files in the playlist directory,
as collected by the glob on line 586 of the source; the directory listing is
an explicit input. -/
def existingStems (files : List String) : List String :=
  (files.filter isMp3).map (fun f => f.dropRight 4)

/-- missing = [s for s in songs if s not in existing_files]
(src/mp3_downloader.py line 590). -/
def missingOf (songs files : List String) : List String :=
  songs.filter (fun s => !(existingStems files).contains s)

/-- The retry loop over the missing tracks (src/mp3_downloader.py lines
596-601), with the per-track retry outcome abstracted as a function: returns
the list of download invocations made, in order, and still_missing. -/
def retryLoop (retryOk : String → Bool) : List String → List String × List String
  | [] => ([], [])
  | s :: rest =>
    let r := retryLoop retryOk rest
    (s :: r.1, if retryOk s then r.2 else s :: r.2)

/-- The reconciliation pass (src/mp3_downloader.py lines 585-601). -/
def reconcile (songs files : List String) (retryOk : String → Bool) :
    List String × List String :=
  retryLoop retryOk (missingOf songs files)

theorem retryLoop_spec (retryOk : String → Bool) :
    ∀ l : List String,
      (retryLoop retryOk l).1 = l ∧
      (retryLoop retryOk l).2 = l.filter (fun s => !retryOk s) := by
  intro l
  induction l with
  | nil => exact ⟨rfl, rfl⟩
  | cons s rest ih =>
    refine ⟨by simp [retryLoop, ih.1], ?_⟩
    simp only [retryLoop, List.filter_cons]
    by_cases h : retryOk s
    · simp [h, ih.2]
    · simp [h, ih.2]

/-- Claim C7: after the first pass, the missing set is exactly the set of
tracks whose (already sanitized) title is not among the base names of the
".mp3" files present in the playlist directory; the retry pass invokes the
download function once per missing track, in order (exactly once per track
when the track list has no duplicate titles), and the tracks reported still
missing are exactly the missing tracks whose retry failed. -/
theorem C7_reconcile (songs files : List String) (retryOk : String → Bool) :
    (reconcile songs files retryOk).1 = missingOf songs files ∧
    (∀ s, s ∈ missingOf songs files ↔ s ∈ songs ∧ s ∉ existingStems files) ∧
    (reconcile songs files retryOk).2
      = (missingOf songs files).filter (fun s => !retryOk s) ∧
    (songs.Nodup → ∀ s ∈ missingOf songs files,
      (reconcile songs files retryOk).1.count s = 1) := by
  refine ⟨(retryLoop_spec retryOk _).1, ?_, (retryLoop_spec retryOk _).2, ?_⟩
  · intro s
    simp [missingOf, List.mem_filter]
  · intro hnd s hs
    show ((retryLoop retryOk (missingOf songs files)).1).count s = 1
    rw [(retryLoop_spec retryOk _).1]
    have hnd' : (missingOf songs files).Nodup := hnd.filter _
    exact List.count_eq_one_of_mem hnd' hs

/-- Witness for C7 on a concrete run: songs a, b, c with only "a.mp3" on
disk and a retry that always fails. -/
theorem C7_witness :
    (reconcile ["a", "b", "c"] ["a.mp3"] (fun _ => false)).1 = ["b", "c"] ∧
    (reconcile ["a", "b", "c"] ["a.mp3"] (fun _ => false)).2 = ["b", "c"] ∧
    (reconcile ["a", "b", "c"] ["a.mp3"] (fun _ => false)).1.count "b" = 1 := by
  have h := C7_reconcile ["a", "b", "c"] ["a.mp3"] (fun _ => false)
  refine ⟨by decide, by decide, ?_⟩
  exact h.2.2.2 (by decide) "b" (by decide)

/-- An observable action of App.run: a log line (with its tag), a directory
creation attempt, or a per-track download subprocess invocation. -/
inductive Action
  | logA (msg : String) (tag : String)
  | mkdirA (dir : String)
  | downloadA (song : String)
deriving DecidableEq

/-- The first pass over the track list (src/mp3_downloader.py lines
533-578), with the per-track download outcome abstracted as a function;
UI-only statements are omitted and the cancellation flag is modelled as
never set (the claims settled against this model do not involve
cancellation). -/
def firstPass (downloadOk : String → Bool) : List String → List Action
  | [] => []
  | s :: rest =>
    ([.logA s "song", .downloadA s] ++
      (if downloadOk s then [.logA ("Finished " ++ s) "done"] else [])) ++
      firstPass downloadOk rest

/-- The retry loop of the reconciliation pass as a list of actions
(src/mp3_downloader.py lines 596-601). -/
def retryActions : List String → List Action
  | [] => []
  | s :: rest =>
    [.logA ("Retrying " ++ s) "retry", .downloadA s] ++ retryActions rest

/-- App.run (src/mp3_downloader.py lines 510-613) as a trace of actions:
the metadata result (None for a raised error, whose message is logged), the
mkdir outcome, the per-track download outcomes, the directory listing at
rescan time, and the retry outcomes are explicit inputs. -/
def appRun (meta : Option (String × List String)) (metaErr : String)
    (mkdirOk : Bool) (downloadOk : String → Bool)
    (files : List String) (retryOk : String → Bool) : List Action :=
  match meta with
  | none => [.logA metaErr "error"]
  | some (playlistName, songs) =>
    if songs.isEmpty then [.logA "Playlist is empty." "error"]
    else
      Action.mkdirA playlistName ::
      if !mkdirOk then [.logA "Cannot create dir" "error"]
      else
        firstPass downloadOk songs ++
        [.logA "Initial pass complete. Rescanning for missing files…" "retry"] ++
        (if (missingOf songs files).isEmpty then
          [.logA "No missing files detected." "done"]
        else
          [.logA (toString (missingOf songs files).length ++ " missing — retrying…")
            "retry"] ++
          retryActions (missingOf songs files) ++
          (if ((missingOf songs files).filter (fun s => !retryOk s)).isEmpty then
            [.logA "All retries succeeded." "done"]
          else
            [.logA "Manual download required for:" "warn"] ++
            ((missingOf songs files).filter (fun s => !retryOk s)).map
              (fun s => Action.logA ("  " ++ s) "warn") ++
            [.logA "These failed due to YouTube restrictions or network issues."
              "warn"])) ++
        [.logA "All downloads finished." "done"]

/-- Claim C8: when the resolved track list is empty, the run stops with the
distinct "Playlist is empty." error log, and its trace contains no directory
creation and no download invocation. -/
theorem C8_empty_playlist (metaErr playlistName : String) (mkdirOk : Bool)
    (downloadOk : String → Bool) (files : List String) (retryOk : String → Bool) :
    appRun (some (playlistName, [])) metaErr mkdirOk downloadOk files retryOk
        = [.logA "Playlist is empty." "error"] ∧
    (∀ a ∈ appRun (some (playlistName, [])) metaErr mkdirOk downloadOk files retryOk,
      (∀ d, a ≠ Action.mkdirA d) ∧ (∀ s, a ≠ Action.downloadA s)) := by
  refine ⟨rfl, ?_⟩
  intro a ha
  rw [show appRun (some (playlistName, [])) metaErr mkdirOk downloadOk files retryOk
      = [.logA "Playlist is empty." "error"] from rfl] at ha
  cases ha with
  | head => exact ⟨(fun d h => nomatch h), (fun s h => nomatch h)⟩
  | tail _ h3 => cases h3

/-- Witness for C1 on a concrete input with stripped characters. -/
theorem C1_witness :
    ('h' ≠ '#' ∧ 'h' ∉ illegalChars) ∧
    (clean_name (some "he#llo?.")).data.getLast? ≠ some '.' := by
  have h := C1_amended (some "he#llo?.")
  exact ⟨h.1 'h' (by decide), h.2.1⟩

/-- Witness for C8 on a concrete empty playlist. -/
theorem C8_witness :
    appRun (some ("p", [])) "err" true (fun _ => true) [] (fun _ => true)
        = [Action.logA "Playlist is empty." "error"] ∧
    Action.logA "Playlist is empty." "error" ≠ Action.mkdirA "p" := by
  have h := C8_empty_playlist "err" "p" true (fun _ => true) [] (fun _ => true)
  refine ⟨h.1, ?_⟩
  exact (h.2 (Action.logA "Playlist is empty." "error")
    (by rw [h.1]; exact List.mem_singleton.mpr rfl)).1 "p"

end MP3
